import Mathlib

/-!
# Verification of the ClipForge timeline compositing engine

Shallow embedding of `export_timeline` and its helpers from
`src/src-tauri/src/commands/ffmpeg.rs` (lines 138-293).  Rust `f64`
timeline times are modelled as exact rationals (`ℚ`); a second, smaller
embedding at the end of the definitions models IEEE comparison with an
explicit NaN value in order to reason about the behaviour of
`sort_by(partial_cmp(..).unwrap())` on non-finite inputs.
-/

/-- Mirrors `VideoMetadata` from `src/src-tauri/src/commands/mod.rs`;
`duration`/`fps` are `f64` in the source, modelled as `ℚ`. -/
structure VideoMetadata where
  duration : ℚ
  width : ℕ
  height : ℕ
  fps : ℚ
  file_size : ℕ
  format : String
deriving DecidableEq

/-- Mirrors `VideoClip` from `src/src-tauri/src/commands/mod.rs` (lines 24-32).
The four `f64` time fields are modelled as `ℚ`. -/
structure VideoClip where
  id : String
  file_path : String
  metadata : VideoMetadata
  start_time : ℚ
  end_time : ℚ
  trim_in : ℚ
  trim_out : ℚ
deriving DecidableEq

/-- Mirrors `ExportParams` from `ffmpeg.rs` (lines 15-20). -/
structure ExportParams where
  clips : List VideoClip
  output_path : String
  resolution : String
deriving DecidableEq

/-- The comparison key used at line 145:
`sorted_clips.sort_by(|a, b| a.start_time.partial_cmp(&b.start_time).unwrap())`.
On finite (`ℚ`-modelled) times `partial_cmp` never returns `None`, so the
comparator is the total order on `start_time`. -/
def clipLE (a b : VideoClip) : Prop := a.start_time ≤ b.start_time

instance : DecidableRel clipLE := fun a b =>
  inferInstanceAs (Decidable (a.start_time ≤ b.start_time))

instance : IsTotal VideoClip clipLE := ⟨fun a b => le_total a.start_time b.start_time⟩

instance : IsTrans VideoClip clipLE := ⟨fun _ _ _ h₁ h₂ => le_trans h₁ h₂⟩

/-- Line 145: `sorted_clips.sort_by(..)`.  Rust's `sort_by` is a *stable*
sort by the comparator; `List.insertionSort` with the same total preorder
computes exactly the stable sort (stability is proved below as
`filter_sortClips`). -/
def sortClips (clips : List VideoClip) : List VideoClip :=
  List.insertionSort clipLE clips

/-- Lines 168-172: resolution of the requested resolution string.  The Rust
`match` is a first-match chain over string literals with a `1080p` default. -/
def resolveResolution (s : String) : ℕ × ℕ :=
  if s = "720p" then (1280, 720)
  else if s = "1080p" then (1920, 1080)
  else (1920, 1080)

/-- A planning segment, the semantic content of one entry pushed onto
`timeline_segments` in the loop at lines 187-231:
either a gap (filter duration of `[gap_vN]`, with its `segment_count` label)
or a clip segment (input index `i` with source trim window parameters
`trim_start = clip.trim_in` and `trim_duration = clip.trim_out - clip.trim_in`). -/
inductive Segment where
  | gapSegment (duration : ℚ) (label : ℕ)
  | clipSegment (input : ℕ) (trim_start : ℚ) (trim_duration : ℚ)
deriving DecidableEq

/-- The loop of lines 187-231, restricted to the `timeline_segments` it
builds: cursor `current_time` starts at `0.0`, a gap is emitted exactly when
`clip.start_time > current_time`, then the clip segment, then
`current_time = clip.end_time`.  `segment_count` is incremented only when a
gap is pushed (line 210). -/
def buildTimeline : List VideoClip → ℕ → ℚ → ℕ → List Segment
  | [], _, _, _ => []
  | c :: rest, i, current_time, segment_count =>
    if c.start_time > current_time then
      Segment.gapSegment (c.start_time - current_time) segment_count
        :: Segment.clipSegment i c.trim_in (c.trim_out - c.trim_in)
        :: buildTimeline rest (i + 1) c.end_time (segment_count + 1)
    else
      Segment.clipSegment i c.trim_in (c.trim_out - c.trim_in)
        :: buildTimeline rest (i + 1) c.end_time segment_count

/-- The parameters of the per-clip video filter built at lines 214-217:
`[i:v]trim=start=TS:duration=TD,setpts=PTS-STARTPTS,`
`scale=W:H:force_original_aspect_ratio=decrease,`
`pad=W:H:(ow-iw)/2:(oh-ih)/2:black,setsar=1[vI_trimmed]`.
Each field holds one parameter of that format string. -/
structure ClipVideoFilter where
  input : ℕ
  trim_start : ℚ
  trim_duration : ℚ
  scale_w : ℕ
  scale_h : ℕ
  force_original_aspect : String
  pad_w : ℕ
  pad_h : ℕ
  pad_x : String
  pad_y : String
  pad_color : String
deriving DecidableEq

/-- The video filter emitted for clip index `i` at lines 214-217; the scale
mode, pad offsets and pad colour are hard-coded in the format string. -/
def mkClipVideoFilter (i : ℕ) (trim_start trim_duration : ℚ)
    (width height : ℕ) : ClipVideoFilter :=
  { input := i
    trim_start := trim_start
    trim_duration := trim_duration
    scale_w := width
    scale_h := height
    force_original_aspect := "decrease"
    pad_w := width
    pad_h := height
    pad_x := "(ow-iw)/2"
    pad_y := "(oh-ih)/2"
    pad_color := "black" }

/-- One entry of `filter_parts` (lines 165-239), each constructor mirroring
one `format!` string pushed by the source. -/
inductive FilterNode where
  /-- Line 176-179: `color=c=black:size=WxH:duration=D:rate=30,setsar=1[black_v]`. -/
  | blackSource (width height : ℕ) (duration : ℚ)
  /-- Line 182-184: `anullsrc=channel_layout=stereo:sample_rate=48000[black_a]`. -/
  | silenceSource
  /-- Lines 199-202: `[black_v]trim=start=0:duration=D,setsar=1[gap_vN]`. -/
  | gapVideo (duration : ℚ) (label : ℕ)
  /-- Lines 203-206: `[black_a]atrim=start=0:duration=D[gap_aN]`. -/
  | gapAudio (duration : ℚ) (label : ℕ)
  /-- Lines 214-218: the trim/scale/pad video chain for one clip. -/
  | clipVideo (f : ClipVideoFilter)
  /-- Lines 221-225: `[i:a]atrim=start=TS:duration=TD,asetpts=PTS-STARTPTS[aI_trimmed]`. -/
  | clipAudio (input : ℕ) (trim_start : ℚ) (trim_duration : ℚ)
  /-- Lines 234-239: `<inputs>concat=n=N:v=1:a=1[outv][outa]`. -/
  | concatNode (inputs : List (String × String)) (n : ℕ) (v : ℕ) (a : ℕ)
deriving DecidableEq

/-- The loop of lines 187-231, restricted to the filter strings it pushes
onto `filter_parts`: per gap a `[gap_vN]`/`[gap_aN]` pair, per clip the
video trim/scale/pad chain and the audio trim chain. -/
def buildLoopFilters : List VideoClip → ℕ → ℚ → ℕ → ℕ → ℕ → List FilterNode
  | [], _, _, _, _, _ => []
  | c :: rest, i, current_time, segment_count, width, height =>
    if c.start_time > current_time then
      FilterNode.gapVideo (c.start_time - current_time) segment_count
        :: FilterNode.gapAudio (c.start_time - current_time) segment_count
        :: FilterNode.clipVideo
             (mkClipVideoFilter i c.trim_in (c.trim_out - c.trim_in) width height)
        :: FilterNode.clipAudio i c.trim_in (c.trim_out - c.trim_in)
        :: buildLoopFilters rest (i + 1) c.end_time (segment_count + 1) width height
    else
      FilterNode.clipVideo
          (mkClipVideoFilter i c.trim_in (c.trim_out - c.trim_in) width height)
        :: FilterNode.clipAudio i c.trim_in (c.trim_out - c.trim_in)
        :: buildLoopFilters rest (i + 1) c.end_time segment_count width height

/-- The `[..][..]` label pair one `timeline_segments` entry contributes to the
concat input string: `[gap_vN][gap_aN]` (line 209) or
`[vI_trimmed][aI_trimmed]` (line 228). -/
def segLabels : Segment → String × String
  | Segment.gapSegment _ n => (s!"[gap_v{n}]", s!"[gap_a{n}]")
  | Segment.clipSegment i _ _ => (s!"[v{i}_trimmed]", s!"[a{i}_trimmed]")

/-- The data of the ffmpeg invocation assembled by `export_timeline` for a
non-empty clip list: the `-i` inputs (line 159-162), `filter_parts`
(lines 165-239, with the `timeline_segments` kept in structured form),
the resolved resolution and the `-t total_duration` limit (lines 266-274). -/
structure ExportPlan where
  inputs : List String
  filters : List FilterNode
  segments : List Segment
  width : ℕ
  height : ℕ
  total_duration : ℚ
  output_path : String
deriving DecidableEq

/-- The body of `export_timeline` (lines 143-276) for a non-empty clip list:
sort, resolve the resolution, build the black/silence generators, run the
segment loop, append the concat filter, and compute
`total_duration = max_end_time + 0.1`. -/
def mkExportPlan (params : ExportParams) : ExportPlan :=
  let sorted_clips := sortClips params.clips
  let wh := resolveResolution params.resolution
  let width := wh.1
  let height := wh.2
  let max_duration := (sorted_clips.map (·.end_time)).foldl max 0 + 1
  let segments := buildTimeline sorted_clips 0 0 0
  let loop_filters := buildLoopFilters sorted_clips 0 0 0 width height
  let filters :=
    FilterNode.blackSource width height max_duration
      :: FilterNode.silenceSource
      :: (loop_filters
          ++ [FilterNode.concatNode (segments.map segLabels) segments.length 1 1])
  let max_end_time := (sorted_clips.map (·.end_time)).foldl max 0
  let total_duration := max_end_time + 1/10
  { inputs := sorted_clips.map (·.file_path)
    filters := filters
    segments := segments
    width := width
    height := height
    total_duration := total_duration
    output_path := params.output_path }

/-- `export_timeline` (lines 138-293).  The empty-clip check at lines 139-141
is the only validation; every other failure path of the source is the
external ffmpeg invocation, which lies outside the pure plan construction
embedded here.  On success the source hands the assembled command to ffmpeg
and returns `params.output_path`; the embedding returns the assembled plan. -/
def export_timeline (params : ExportParams) : Except String ExportPlan :=
  if params.clips.isEmpty then
    Except.error "No clips to export"
  else
    Except.ok (mkExportPlan params)

/-- Duration contributed by one planned segment: the gap filter's duration,
or the clip chain's `trim_duration`. -/
def segDuration : Segment → ℚ
  | Segment.gapSegment d _ => d
  | Segment.clipSegment _ _ td => td

/-- The value of the loop cursor `current_time` after processing `l`
starting from `t` (each iteration ends with `current_time = clip.end_time`,
line 230). -/
def finalCursor (l : List VideoClip) (t : ℚ) : ℚ :=
  l.foldl (fun _ c => c.end_time) t

/-- Per-clip invariants of the spec's data model (§3): non-negative times,
`start_time ≤ end_time`, `trim_in ≤ trim_out`, and the derived invariant
that placement duration matches the trimmed-source duration. -/
def consistentClip (c : VideoClip) : Prop :=
  0 ≤ c.start_time ∧ c.start_time ≤ c.end_time ∧
    0 ≤ c.trim_in ∧ c.trim_in ≤ c.trim_out ∧
    c.end_time - c.start_time = c.trim_out - c.trim_in

instance (c : VideoClip) : Decidable (consistentClip c) := by
  unfold consistentClip; infer_instance

/-- A valid timeline input (spec §3/§4.1): non-empty, per-clip invariants,
and no overlap between consecutive clips once sorted by `start_time`. -/
def ValidClips (clips : List VideoClip) : Prop :=
  clips ≠ [] ∧ (∀ c ∈ clips, consistentClip c) ∧
    List.Chain' (fun a b => a.end_time ≤ b.start_time) (sortClips clips)

instance (clips : List VideoClip) : Decidable (ValidClips clips) := by
  unfold ValidClips; infer_instance

/-- Modelled from the spec (§4.3 fit policy): the output dimensions of
ffmpeg's `scale=w:h:force_original_aspect_ratio=decrease` — the target box
`(w, h)` with one dimension decreased so the source aspect ratio `sw : sh`
is preserved.  The semantics of the external scale filter is not source
code of this repository; this definition records its documented behaviour. -/
def scaleDecrease (w h sw sh : ℚ) : ℚ × ℚ :=
  if w * sh ≤ sw * h then (w, sh * w / sw) else (sw * h / sh, h)

/-- Modelled from the spec (§4.3): the value of the pad offset expression
`(ow-iw)/2` (respectively `(oh-ih)/2`) used at line 215 — the centring
offset of an `inner`-sized picture in an `outer`-sized box. -/
def evalCenterExpr (outer inner : ℚ) : ℚ := (outer - inner) / 2

/-- Modelled from the spec (§4.3): the output frame of ffmpeg's `pad=w:h`,
defined when the input frame fits inside the target box; the padded frame
is exactly the target box. -/
def padOutput (w h iw ih : ℚ) : Option (ℚ × ℚ) :=
  if iw ≤ w ∧ ih ≤ h then some (w, h) else none

/-- Follows the spec's words (§4.3), for comparison with the emitted filter
parameters: `(w', h')` is an aspect-ratio-preserving size that fits inside
the `(w, h)` box and is the largest such size. -/
def SpecFitPolicy (w h sw sh wfit hfit : ℚ) : Prop :=
  wfit * sh = hfit * sw ∧ wfit ≤ w ∧ hfit ≤ h ∧
    ∀ a b : ℚ, 0 ≤ a → a * sh = b * sw → a ≤ w → b ≤ h → a ≤ wfit ∧ b ≤ hfit

/-- `true` exactly on the concat filter node (lines 234-239). -/
def isConcatNode : FilterNode → Bool
  | FilterNode.concatNode _ _ _ _ => true
  | _ => false

/-! ## Concrete clips used by the examples, counterexamples and witnesses -/

def defaultMeta : VideoMetadata :=
  { duration := 10, width := 1920, height := 1080, fps := 30,
    file_size := 0, format := "mp4" }

/-- Clip A of the spec's examples: placed on `[0, 2)`, trim window `[0, 2)`. -/
def clipA : VideoClip :=
  { id := "A", file_path := "a.mp4", metadata := defaultMeta,
    start_time := 0, end_time := 2, trim_in := 0, trim_out := 2 }

/-- Clip B of the spec's examples: placed on `[5, 7)`, trim window `[0, 2)`. -/
def clipB : VideoClip :=
  { id := "B", file_path := "b.mp4", metadata := defaultMeta,
    start_time := 5, end_time := 7, trim_in := 0, trim_out := 2 }

/-- Overlapping clip A of the spec's overlap-rejection example: `[0, 5)`. -/
def overlapClipA : VideoClip :=
  { id := "A", file_path := "a.mp4", metadata := defaultMeta,
    start_time := 0, end_time := 5, trim_in := 0, trim_out := 5 }

/-- Overlapping clip B of the spec's overlap-rejection example: `[3, 7)`. -/
def overlapClipB : VideoClip :=
  { id := "B", file_path := "b.mp4", metadata := defaultMeta,
    start_time := 3, end_time := 7, trim_in := 0, trim_out := 4 }

def overlapParams : ExportParams :=
  { clips := [overlapClipA, overlapClipB], output_path := "out.mp4",
    resolution := "1080p" }

/-- A single-clip export request used by several witnesses. -/
def exampleParams : ExportParams :=
  { clips := [clipA], output_path := "out.mp4", resolution := "720p" }

/-- The two-clip export request of the spec's gap example. -/
def exampleParamsAB : ExportParams :=
  { clips := [clipA, clipB], output_path := "out.mp4", resolution := "1080p" }

/-! ## IEEE-comparison embedding for the NaN claim

`f64` restricted to the values exercised by claim C4: finite values and NaN.
`partial_cmp` on `f64` returns `None` exactly when an operand is NaN, and
the source unwraps that `Option` inside the sort comparator (line 145). -/

/-- An `f64` timeline value: finite (exact rational) or NaN. -/
inductive FValue where
  | fin (q : ℚ)
  | nan
deriving DecidableEq

/-- `f64::partial_cmp`: `None` exactly when an operand is NaN. -/
def fPartialCmp : FValue → FValue → Option Ordering
  | FValue.fin a, FValue.fin b => some (compare a b)
  | _, _ => none

/-- IEEE `>`: false whenever an operand is NaN (the gap test of line 197). -/
def fGt : FValue → FValue → Bool
  | FValue.fin a, FValue.fin b => decide (b < a)
  | _, _ => false

/-- IEEE subtraction: NaN propagates. -/
def fSub : FValue → FValue → FValue
  | FValue.fin a, FValue.fin b => FValue.fin (a - b)
  | _, _ => FValue.nan

/-- IEEE addition: NaN propagates. -/
def fAdd : FValue → FValue → FValue
  | FValue.fin a, FValue.fin b => FValue.fin (a + b)
  | _, _ => FValue.nan

/-- `f64::max`: if one argument is NaN, the other argument is returned. -/
def fMax : FValue → FValue → FValue
  | FValue.fin a, FValue.fin b => FValue.fin (max a b)
  | FValue.nan, x => x
  | x, FValue.nan => x

/-- `VideoClip` with `f64` times kept as `FValue` (metadata omitted:
`export_timeline` never reads it). -/
structure FClip where
  id : String
  file_path : String
  start_time : FValue
  end_time : FValue
  trim_in : FValue
  trim_out : FValue
deriving DecidableEq

/-- One insertion step of the stable sort of line 145 in the `Option` monad:
`none` models the `unwrap` panic when `partial_cmp` returns `None`. -/
def fOrderedInsert (c : FClip) : List FClip → Option (List FClip)
  | [] => some [c]
  | d :: ds =>
    match fPartialCmp c.start_time d.start_time with
    | none => none
    | some Ordering.gt => (fOrderedInsert c ds).map (fun t => d :: t)
    | some _ => some (c :: d :: ds)

/-- The stable sort of line 145 in the `Option` monad; `none` models a
comparator panic.  A one-element list performs no comparison at all. -/
def fSortClips : List FClip → Option (List FClip)
  | [] => some []
  | c :: l => (fSortClips l).bind (fOrderedInsert c)

/-- Planning segment over `f64` values. -/
inductive FSegment where
  | gapSegment (duration : FValue) (label : ℕ)
  | clipSegment (input : ℕ) (trim_start : FValue) (trim_duration : FValue)
deriving DecidableEq

/-- The loop of lines 187-231 over `f64` values: the gap test
`clip.start_time > current_time` is IEEE `>` and is false on NaN. -/
def fBuildTimeline : List FClip → ℕ → FValue → ℕ → List FSegment
  | [], _, _, _ => []
  | c :: rest, i, current_time, segment_count =>
    if fGt c.start_time current_time then
      FSegment.gapSegment (fSub c.start_time current_time) segment_count
        :: FSegment.clipSegment i c.trim_in (fSub c.trim_out c.trim_in)
        :: fBuildTimeline rest (i + 1) c.end_time (segment_count + 1)
    else
      FSegment.clipSegment i c.trim_in (fSub c.trim_out c.trim_in)
        :: fBuildTimeline rest (i + 1) c.end_time segment_count

/-- The plan data relevant to claim C4. -/
structure FPlan where
  segments : List FSegment
  total_duration : FValue
deriving DecidableEq

/-- `export_timeline` over `f64` values, through the plan construction:
`none` models a panic inside the sort comparator; `some` carries the
source's result (validation error or assembled plan). -/
def fExportTimeline (clips : List FClip) : Option (Except String FPlan) :=
  if clips.isEmpty then some (Except.error "No clips to export")
  else
    (fSortClips clips).map (fun sorted_clips =>
      let segments := fBuildTimeline sorted_clips 0 (FValue.fin 0) 0
      let max_end_time := (sorted_clips.map (·.end_time)).foldl fMax (FValue.fin 0)
      Except.ok
        { segments := segments
          total_duration := fAdd max_end_time (FValue.fin (1/10)) })

/-- A clip whose `start_time` and `end_time` are NaN. -/
def fNanClip : FClip :=
  { id := "N", file_path := "n.mp4", start_time := FValue.nan,
    end_time := FValue.nan, trim_in := FValue.fin 0, trim_out := FValue.fin 2 }

/-- A clip with finite times. -/
def fFinClip : FClip :=
  { id := "F", file_path := "f.mp4", start_time := FValue.fin 0,
    end_time := FValue.fin 2, trim_in := FValue.fin 0, trim_out := FValue.fin 2 }

/-! ## Helper lemmas -/

lemma export_timeline_ok_elim {params : ExportParams} {plan : ExportPlan}
    (hok : export_timeline params = Except.ok plan) : plan = mkExportPlan params := by
  unfold export_timeline at hok
  by_cases h : params.clips.isEmpty
  · simp [h] at hok
  · simp [h] at hok
    exact hok.symm

lemma mkExportPlan_segments (params : ExportParams) :
    (mkExportPlan params).segments = buildTimeline (sortClips params.clips) 0 0 0 := rfl

lemma mkExportPlan_width (params : ExportParams) :
    (mkExportPlan params).width = (resolveResolution params.resolution).1 := rfl

lemma mkExportPlan_height (params : ExportParams) :
    (mkExportPlan params).height = (resolveResolution params.resolution).2 := rfl

lemma mkExportPlan_total_duration (params : ExportParams) :
    (mkExportPlan params).total_duration
      = ((sortClips params.clips).map (·.end_time)).foldl max 0 + 1/10 := rfl

lemma mkExportPlan_filters (params : ExportParams) :
    (mkExportPlan params).filters =
      FilterNode.blackSource (resolveResolution params.resolution).1
          (resolveResolution params.resolution).2
          (((sortClips params.clips).map (·.end_time)).foldl max 0 + 1)
        :: FilterNode.silenceSource
        :: (buildLoopFilters (sortClips params.clips) 0 0 0
              (resolveResolution params.resolution).1
              (resolveResolution params.resolution).2
            ++ [FilterNode.concatNode
                  ((buildTimeline (sortClips params.clips) 0 0 0).map segLabels)
                  (buildTimeline (sortClips params.clips) 0 0 0).length 1 1]) := rfl

/-! ## Claims -/

/-- C9: for the empty clip list, `export_timeline` fails immediately with the
empty-timeline error (`"No clips to export"`, lines 139-141), before any plan
is built and before the external engine would be invoked. -/
theorem export_empty_timeline_error :
    ∀ (out res : String),
      export_timeline { clips := [], output_path := out, resolution := res }
        = Except.error "No clips to export" := by
  intro out res
  rfl

/-- C10: resolution of the resolution request string (lines 168-172) is total
and never fails: `"720p"` resolves to `(1280, 720)`, `"1080p"` to
`(1920, 1080)`, and any other string silently resolves to the default
`(1920, 1080)`. -/
theorem resolveResolution_total :
    resolveResolution "720p" = (1280, 720) ∧
    resolveResolution "1080p" = (1920, 1080) ∧
    ∀ s : String,
      resolveResolution s = if s = "720p" then (1280, 720) else (1920, 1080) := by
  refine ⟨rfl, rfl, ?_⟩
  intro s
  unfold resolveResolution
  by_cases h : s = "720p" <;> by_cases h' : s = "1080p" <;> simp [h, h']

/-- C1: the planner walks a cursor initialised to 0; for each clip in order it
emits a gap segment of duration `start_time - cursor` exactly when
`start_time > cursor` (none when they are equal), then a clip segment for the
clip's full trim window, then sets the cursor to `end_time`; the empty
remainder emits nothing, so no trailing gap follows the last clip.  On
clips A `[0,2)` and B `[5,7)` this yields
`[ClipSegment(A), GapSegment(3.0), ClipSegment(B)]`. -/
theorem export_planner_gap_walk :
    (∀ (c : VideoClip) (rest : List VideoClip) (i segment_count : ℕ) (t : ℚ),
        buildTimeline (c :: rest) i t segment_count =
          (if c.start_time > t
            then [Segment.gapSegment (c.start_time - t) segment_count]
            else [])
          ++ Segment.clipSegment i c.trim_in (c.trim_out - c.trim_in)
            :: buildTimeline rest (i + 1) c.end_time
                (if c.start_time > t then segment_count + 1 else segment_count)) ∧
    (∀ (i segment_count : ℕ) (t : ℚ), buildTimeline [] i t segment_count = []) ∧
    buildTimeline (sortClips [clipA, clipB]) 0 0 0 =
      [Segment.clipSegment 0 clipA.trim_in (clipA.trim_out - clipA.trim_in),
       Segment.gapSegment 3 0,
       Segment.clipSegment 1 clipB.trim_in (clipB.trim_out - clipB.trim_in)] := by
  refine ⟨?_, fun _ _ _ => rfl, ?_⟩
  · intro c rest i segment_count t
    by_cases h : c.start_time > t <;> simp [buildTimeline, h]
  · norm_num [sortClips, List.insertionSort, List.orderedInsert, clipLE,
      clipA, clipB, buildTimeline]

/-- C3 counterexample: the overlapping clips A `[0,5)` and B `[3,7)` do not
raise any validation error; `export_timeline` silently produces a plan whose
segments are the two clip segments (the claimed `OverlapError` never
occurs). -/
theorem export_overlap_accepted_counterexample :
    (export_timeline overlapParams).map ExportPlan.segments =
      Except.ok [Segment.clipSegment 0 0 5, Segment.clipSegment 1 0 4] := by
  norm_num [export_timeline, overlapParams, Except.map, mkExportPlan_segments,
    sortClips, List.insertionSort, List.orderedInsert, clipLE,
    overlapClipA, overlapClipB, buildTimeline]

/-- C3 amended: `export_timeline` performs no clip-invariant or overlap
validation at all — the empty-clip check is the only input validation, and
every non-empty clip list (overlapping or malformed included) is silently
planned.  Overlapping clips A `[0,5)` and B `[3,7)` yield
`[ClipSegment(A), ClipSegment(B)]` with no error; no negative-duration gap is
emitted because gaps only arise when `start_time` exceeds the cursor. -/
theorem export_no_overlap_validation :
    (∀ params : ExportParams, params.clips ≠ [] →
        export_timeline params = Except.ok (mkExportPlan params)) ∧
    (export_timeline overlapParams).map ExportPlan.segments =
      Except.ok [Segment.clipSegment 0 0 5, Segment.clipSegment 1 0 4] := by
  constructor
  · intro params h
    cases hc : params.clips with
    | nil => exact absurd hc h
    | cons c cs => simp [export_timeline, hc]
  · norm_num [export_timeline, overlapParams, Except.map, mkExportPlan_segments,
      sortClips, List.insertionSort, List.orderedInsert, clipLE,
      overlapClipA, overlapClipB, buildTimeline]

theorem export_no_overlap_validation_witness :
    export_timeline exampleParams = Except.ok (mkExportPlan exampleParams) :=
  export_no_overlap_validation.1 exampleParams (by decide)

/-- C4 counterexample: a clip list containing a NaN `start_time` alongside a
second clip makes the sort comparator `partial_cmp(..).unwrap()` (line 145)
panic — modelled as `none` — instead of returning the claimed hard input
error. -/
theorem export_nan_sort_comparator_counterexample :
    fExportTimeline [fNanClip, fFinClip] = none := by
  rfl

/-- C4 amended: `export_timeline` performs no finiteness validation.  With a
lone NaN clip no comparison is performed and the plan is built silently (the
IEEE gap test `NaN > cursor` is false, so the clip is planned with no gap and
`f64::max` drops the NaN end time); with two clips where the NaN start must
be compared, the comparator's `unwrap` panics rather than returning an
error. -/
theorem export_nan_no_validation :
    fExportTimeline [fNanClip, fFinClip] = none ∧
    fExportTimeline [fNanClip] =
      some (Except.ok
        { segments := [FSegment.clipSegment 0 (FValue.fin 0) (FValue.fin 2)],
          total_duration := FValue.fin (1/10) }) := by
  refine ⟨rfl, ?_⟩
  norm_num [fExportTimeline, fSortClips, fOrderedInsert, fPartialCmp,
    fBuildTimeline, fGt, fSub, fAdd, fMax, fNanClip, Option.bind]

/-! ## Sorting: order invariance and stability -/

lemma sorted_lt_of_nodup_starts {l : List VideoClip} (hs : l.Sorted clipLE)
    (hn : (l.map (·.start_time)).Nodup) :
    l.Pairwise (fun a b => a.start_time < b.start_time) := by
  induction l with
  | nil => simp
  | cons c rest ih =>
    rw [List.map_cons, List.nodup_cons] at hn
    rw [List.sorted_cons] at hs
    rw [List.pairwise_cons]
    refine ⟨fun d hd => lt_of_le_of_ne (hs.1 d hd) ?_, ih hs.2 hn.2⟩
    intro heq
    apply hn.1
    rw [heq]
    exact List.mem_map_of_mem (·.start_time) hd

lemma sortClips_eq_of_perm {l₁ l₂ : List VideoClip} (hp : l₁.Perm l₂)
    (hn : (l₁.map (·.start_time)).Nodup) : sortClips l₁ = sortClips l₂ := by
  have p₁ : (sortClips l₁).Perm l₁ := List.perm_insertionSort clipLE l₁
  have p₂ : (sortClips l₂).Perm l₂ := List.perm_insertionSort clipLE l₂
  have hp' : (sortClips l₁).Perm (sortClips l₂) := (p₁.trans hp).trans p₂.symm
  have hn₂ : (l₂.map (·.start_time)).Nodup := ((hp.map (·.start_time)).nodup_iff).mp hn
  have hns₁ : ((sortClips l₁).map (·.start_time)).Nodup :=
    ((p₁.map (·.start_time)).nodup_iff).mpr hn
  have hns₂ : ((sortClips l₂).map (·.start_time)).Nodup :=
    ((p₂.map (·.start_time)).nodup_iff).mpr hn₂
  have t₁ : (sortClips l₁).Pairwise (fun a b => a.start_time < b.start_time) :=
    sorted_lt_of_nodup_starts (List.sorted_insertionSort clipLE l₁) hns₁
  have t₂ : (sortClips l₂).Pairwise (fun a b => a.start_time < b.start_time) :=
    sorted_lt_of_nodup_starts (List.sorted_insertionSort clipLE l₂) hns₂
  haveI : IsAntisymm VideoClip (fun a b => a.start_time < b.start_time) :=
    ⟨fun _ _ h₁ h₂ => absurd (h₁.trans h₂) (lt_irrefl _)⟩
  exact List.eq_of_perm_of_sorted hp' t₁ t₂

lemma filter_orderedInsert (s : ℚ) (c : VideoClip) (M : List VideoClip) :
    (List.orderedInsert clipLE c M).filter (fun d => decide (d.start_time = s)) =
      if c.start_time = s
      then c :: M.filter (fun d => decide (d.start_time = s))
      else M.filter (fun d => decide (d.start_time = s)) := by
  induction M with
  | nil =>
    by_cases h : c.start_time = s <;> simp [List.orderedInsert, h]
  | cons d ds ih =>
    rw [List.orderedInsert]
    by_cases hcd : clipLE c d
    · rw [if_pos hcd]
      by_cases h : c.start_time = s <;> simp [List.filter_cons, h]
    · rw [if_neg hcd]
      rw [List.filter_cons, ih]
      by_cases h : c.start_time = s
      · have hds : d.start_time ≠ s := by
          intro hd
          apply hcd
          show c.start_time ≤ d.start_time
          rw [hd, h]
        simp [List.filter_cons, h, hds]
      · by_cases hd : d.start_time = s <;> simp [List.filter_cons, h, hd]

lemma filter_sortClips (s : ℚ) (l : List VideoClip) :
    (sortClips l).filter (fun d => decide (d.start_time = s)) =
      l.filter (fun d => decide (d.start_time = s)) := by
  induction l with
  | nil => rfl
  | cons c rest ih =>
    show (List.orderedInsert clipLE c (List.insertionSort clipLE rest)).filter _ = _
    rw [filter_orderedInsert]
    have ih' : (List.insertionSort clipLE rest).filter
        (fun d => decide (d.start_time = s)) =
        rest.filter (fun d => decide (d.start_time = s)) := ih
    by_cases h : c.start_time = s <;> simp [h, ih', List.filter_cons]

/-- C5: the planned segment sequence is invariant under permutation of the
input when start times are pairwise distinct (the code sorts before
planning, line 145), and the sort is stable: for every start-time value the
clips carrying it appear in the sorted list in their original input order,
so equal-start clips keep their input order in the plan. -/
theorem export_plan_order_invariance :
    (∀ l₁ l₂ : List VideoClip, l₁.Perm l₂ → (l₁.map (·.start_time)).Nodup →
        buildTimeline (sortClips l₁) 0 0 0 = buildTimeline (sortClips l₂) 0 0 0) ∧
    (∀ (l : List VideoClip) (s : ℚ),
        (sortClips l).filter (fun d => decide (d.start_time = s)) =
          l.filter (fun d => decide (d.start_time = s))) :=
  ⟨fun _ _ hp hn => by rw [sortClips_eq_of_perm hp hn],
   fun l s => filter_sortClips s l⟩

theorem export_plan_order_invariance_witness :
    buildTimeline (sortClips [clipB, clipA]) 0 0 0 =
      buildTimeline (sortClips [clipA, clipB]) 0 0 0 :=
  export_plan_order_invariance.1 [clipB, clipA] [clipA, clipB]
    (List.Perm.swap clipA clipB []) (by decide)

/-! ## The concat node -/

lemma buildLoopFilters_no_concat :
    ∀ (l : List VideoClip) (i : ℕ) (t : ℚ) (sc w h : ℕ),
      (buildLoopFilters l i t sc w h).filter isConcatNode = [] := by
  intro l
  induction l with
  | nil => intros; rfl
  | cons c rest ih =>
    intro i t sc w h
    by_cases hgt : c.start_time > t <;>
      simp [buildLoopFilters, hgt, List.filter_cons, isConcatNode, ih]

/-- C7: the emitted filter graph contains exactly one concatenation node; it
receives the per-segment `(video, audio)` label pairs in segment order, with
`n` equal to the number of segments and `v = 1`, `a = 1` (lines 233-239) —
video-only or audio-only concatenation is never emitted. -/
theorem export_single_concat_node (params : ExportParams) (plan : ExportPlan)
    (hok : export_timeline params = Except.ok plan) :
    plan.filters.filter isConcatNode =
      [FilterNode.concatNode (plan.segments.map segLabels)
        plan.segments.length 1 1] := by
  have hplan := export_timeline_ok_elim hok
  subst hplan
  rw [mkExportPlan_filters, mkExportPlan_segments]
  simp [List.filter_cons, List.filter_append, isConcatNode, buildLoopFilters_no_concat]

theorem export_single_concat_node_witness :
    (mkExportPlan exampleParams).filters.filter isConcatNode =
      [FilterNode.concatNode ((mkExportPlan exampleParams).segments.map segLabels)
        (mkExportPlan exampleParams).segments.length 1 1] :=
  export_single_concat_node exampleParams (mkExportPlan exampleParams) rfl

/-! ## Fold-max helpers -/

lemma le_foldl_max : ∀ (l : List ℚ) (a : ℚ), a ≤ l.foldl max a
  | [], a => le_refl a
  | x :: xs, a => le_trans (le_max_left a x) (le_foldl_max xs (max a x))

lemma mem_le_foldl_max : ∀ (l : List ℚ) (a x : ℚ), x ∈ l → x ≤ l.foldl max a := by
  intro l
  induction l with
  | nil => intro a x hx; cases hx
  | cons y ys ih =>
    intro a x hx
    rcases List.mem_cons.mp hx with h | h
    · subst h
      exact le_trans (le_max_right a x) (le_foldl_max ys (max a x))
    · exact ih (max a y) x h

lemma foldl_max_mem : ∀ (l : List ℚ) (a : ℚ), l.foldl max a = a ∨ l.foldl max a ∈ l := by
  intro l
  induction l with
  | nil => intro a; exact Or.inl rfl
  | cons x xs ih =>
    intro a
    rw [List.foldl_cons]
    rcases ih (max a x) with h | h
    · rcases max_choice a x with h' | h'
      · exact Or.inl (by rw [h, h'])
      · refine Or.inr ?_
        rw [h, h']
        exact List.mem_cons_self x xs
    · exact Or.inr (List.mem_cons_of_mem x h)

/-- C8: for every non-empty clip list (satisfying the data model's
non-negative `end_time` invariant), the `-t` encoder duration limit is
`max(clip.end_time) + 0.1` (lines 266-274): there is a clip attaining the
maximum end time, and the planned total duration is its end time plus the
fixed 100 ms padding. -/
theorem export_total_duration_epsilon (params : ExportParams) (plan : ExportPlan)
    (hok : export_timeline params = Except.ok plan)
    (hne : params.clips ≠ [])
    (hpos : ∀ c ∈ params.clips, 0 ≤ c.end_time) :
    ∃ c₀ ∈ params.clips,
      plan.total_duration = c₀.end_time + 1/10 ∧
        ∀ c ∈ params.clips, c.end_time ≤ c₀.end_time := by
  have hplan := export_timeline_ok_elim hok
  subst hplan
  rw [mkExportPlan_total_duration]
  have hperm : (sortClips params.clips).Perm params.clips :=
    List.perm_insertionSort clipLE params.clips
  have hub : ∀ c ∈ params.clips,
      c.end_time ≤ ((sortClips params.clips).map (·.end_time)).foldl max 0 := by
    intro c hc
    exact mem_le_foldl_max _ 0 c.end_time
      (List.mem_map_of_mem _ (hperm.mem_iff.mpr hc))
  rcases foldl_max_mem ((sortClips params.clips).map (·.end_time)) 0 with h0 | hmem
  · obtain ⟨c₀, hc₀⟩ := List.exists_mem_of_ne_nil params.clips hne
    have hM : c₀.end_time = ((sortClips params.clips).map (·.end_time)).foldl max 0 :=
      le_antisymm (hub c₀ hc₀) (by rw [h0]; exact hpos c₀ hc₀)
    refine ⟨c₀, hc₀, by rw [hM], fun c hc => ?_⟩
    rw [hM]
    exact hub c hc
  · obtain ⟨c₀, hc₀s, hc₀⟩ := List.mem_map.mp hmem
    refine ⟨c₀, hperm.mem_iff.mp hc₀s, by rw [hc₀], fun c hc => ?_⟩
    rw [hc₀]
    exact hub c hc

theorem export_total_duration_epsilon_witness :
    ∃ c₀ ∈ exampleParamsAB.clips,
      (mkExportPlan exampleParamsAB).total_duration = c₀.end_time + 1/10 ∧
        ∀ c ∈ exampleParamsAB.clips, c.end_time ≤ c₀.end_time :=
  export_total_duration_epsilon exampleParamsAB (mkExportPlan exampleParamsAB)
    rfl (by decide) (by norm_num [exampleParamsAB, clipA, clipB])

/-! ## Duration conservation -/

lemma finalCursor_bounds : ∀ (l : List VideoClip) (t : ℚ),
    List.Chain' (fun a b => a.end_time ≤ b.start_time) l →
    (∀ c ∈ l, c.start_time ≤ c.end_time) →
    (∀ d, l.head? = some d → t ≤ d.start_time) →
    t ≤ finalCursor l t ∧ ∀ c ∈ l, c.end_time ≤ finalCursor l t := by
  intro l
  induction l with
  | nil =>
    intro t _ _ _
    exact ⟨le_refl t, by simp⟩
  | cons c rest ih =>
    intro t hov hse hhead
    have hts : t ≤ c.start_time := hhead c rfl
    have hce : c.start_time ≤ c.end_time := hse c (List.mem_cons_self c rest)
    have hrest_head : ∀ d, rest.head? = some d → c.end_time ≤ d.start_time := by
      cases rest with
      | nil => intro d hd; simp at hd
      | cons d ds =>
        intro e he
        injection he with he
        subst he
        exact (List.chain'_cons.mp hov).1
    have hse' : ∀ x ∈ rest, x.start_time ≤ x.end_time :=
      fun x hx => hse x (List.mem_cons_of_mem c hx)
    obtain ⟨h1, h2⟩ := ih c.end_time hov.tail hse' hrest_head
    have hfc : finalCursor (c :: rest) t = finalCursor rest c.end_time := rfl
    rw [hfc]
    refine ⟨le_trans (le_trans hts hce) h1, ?_⟩
    intro x hx
    rcases List.mem_cons.mp hx with h | h
    · subst h
      exact h1
    · exact h2 x h

lemma finalCursor_last : ∀ (l : List VideoClip) (t : ℚ), l ≠ [] →
    ∃ c₀ ∈ l, finalCursor l t = c₀.end_time := by
  intro l
  induction l with
  | nil => intro t h; exact absurd rfl h
  | cons c rest ih =>
    intro t _
    cases rest with
    | nil => exact ⟨c, List.mem_cons_self c [], rfl⟩
    | cons d ds =>
      obtain ⟨c₀, hm, hv⟩ := ih c.end_time (List.cons_ne_nil d ds)
      exact ⟨c₀, List.mem_cons_of_mem c hm, hv⟩

lemma segSum_buildTimeline : ∀ (l : List VideoClip) (i sc : ℕ) (t : ℚ),
    List.Chain' (fun a b => a.end_time ≤ b.start_time) l →
    (∀ c ∈ l, c.end_time - c.start_time = c.trim_out - c.trim_in) →
    (∀ d, l.head? = some d → t ≤ d.start_time) →
    ((buildTimeline l i t sc).map segDuration).sum = finalCursor l t - t := by
  intro l
  induction l with
  | nil =>
    intro i sc t _ _ _
    simp [buildTimeline, finalCursor]
  | cons c rest ih =>
    intro i sc t hov hcons hhead
    have hts : t ≤ c.start_time := hhead c rfl
    have hrest_head : ∀ d, rest.head? = some d → c.end_time ≤ d.start_time := by
      cases rest with
      | nil => intro d hd; simp at hd
      | cons d ds =>
        intro e he
        injection he with he
        subst he
        exact (List.chain'_cons.mp hov).1
    have hcons' : ∀ x ∈ rest, x.end_time - x.start_time = x.trim_out - x.trim_in :=
      fun x hx => hcons x (List.mem_cons_of_mem c hx)
    have hc := hcons c (List.mem_cons_self c rest)
    have hfc : finalCursor (c :: rest) t = finalCursor rest c.end_time := rfl
    by_cases hgt : c.start_time > t
    · simp only [buildTimeline, if_pos hgt, List.map_cons, List.sum_cons, segDuration]
      rw [ih (i + 1) (sc + 1) c.end_time hov.tail hcons' hrest_head, hfc]
      linarith
    · simp only [buildTimeline, if_neg hgt, List.map_cons, List.sum_cons, segDuration]
      rw [ih (i + 1) sc c.end_time hov.tail hcons' hrest_head, hfc]
      have heq : c.start_time = t := le_antisymm (not_lt.mp hgt) hts
      linarith

/-- C2: for every valid clip list (non-empty, per-clip invariants with
placement duration equal to trim duration, no overlap after sorting), the
durations of the planned segments sum to the final cursor value — the
planning-level `total_duration`, reached with no trailing gap — and that
total equals the maximum `end_time` over the input clips, attained by some
clip. -/
theorem export_duration_conservation (params : ExportParams) (plan : ExportPlan)
    (hok : export_timeline params = Except.ok plan)
    (hval : ValidClips params.clips) :
    ((plan.segments.map segDuration).sum = finalCursor (sortClips params.clips) 0) ∧
    ∃ c₀ ∈ params.clips,
      finalCursor (sortClips params.clips) 0 = c₀.end_time ∧
        ∀ c ∈ params.clips, c.end_time ≤ c₀.end_time := by
  obtain ⟨hne, hinv, hchain⟩ := hval
  have hplan := export_timeline_ok_elim hok
  subst hplan
  rw [mkExportPlan_segments]
  have hperm : (sortClips params.clips).Perm params.clips :=
    List.perm_insertionSort clipLE params.clips
  have hinv' : ∀ c ∈ sortClips params.clips, consistentClip c :=
    fun c hc => hinv c (hperm.mem_iff.mp hc)
  have hhead : ∀ d, (sortClips params.clips).head? = some d → (0 : ℚ) ≤ d.start_time := by
    intro d hd
    have hdm : d ∈ sortClips params.clips := by
      cases hsl : sortClips params.clips with
      | nil => rw [hsl] at hd; simp at hd
      | cons x xs =>
        rw [hsl] at hd
        injection hd with hd
        subst hd
        exact List.mem_cons_self x xs
    exact (hinv' d hdm).1
  have hsne : sortClips params.clips ≠ [] := by
    intro h
    apply hne
    have := hperm
    rw [h] at this
    exact this.symm.eq_nil
  constructor
  · have hsum := segSum_buildTimeline (sortClips params.clips) 0 0 0 hchain
      (fun c hc => (hinv' c hc).2.2.2.2) hhead
    rw [hsum, sub_zero]
  · obtain ⟨c₀, hc₀m, hc₀⟩ := finalCursor_last (sortClips params.clips) 0 hsne
    have hbounds := (finalCursor_bounds (sortClips params.clips) 0 hchain
      (fun c hc => (hinv' c hc).2.1) hhead).2
    refine ⟨c₀, hperm.mem_iff.mp hc₀m, hc₀, fun c hc => ?_⟩
    rw [← hc₀]
    exact hbounds c (hperm.mem_iff.mpr hc)

theorem export_duration_conservation_witness :
    (((mkExportPlan exampleParamsAB).segments.map segDuration).sum
        = finalCursor (sortClips exampleParamsAB.clips) 0) ∧
    ∃ c₀ ∈ exampleParamsAB.clips,
      finalCursor (sortClips exampleParamsAB.clips) 0 = c₀.end_time ∧
        ∀ c ∈ exampleParamsAB.clips, c.end_time ≤ c₀.end_time :=
  export_duration_conservation exampleParamsAB (mkExportPlan exampleParamsAB) rfl
    (by
      refine ⟨by decide, ?_, ?_⟩
      · norm_num [consistentClip, clipA, clipB, exampleParamsAB]
      · norm_num [exampleParamsAB, sortClips, List.insertionSort, List.orderedInsert,
          clipLE, clipA, clipB, List.chain'_cons])

/-! ## The scale/pad fit policy -/

lemma scaleDecrease_eq_of_le {w h sw sh : ℚ} (hc : w * sh ≤ sw * h) :
    scaleDecrease w h sw sh = (w, sh * w / sw) := by
  unfold scaleDecrease
  rw [if_pos hc]

lemma scaleDecrease_eq_of_gt {w h sw sh : ℚ} (hc : ¬ w * sh ≤ sw * h) :
    scaleDecrease w h sw sh = (sw * h / sh, h) := by
  unfold scaleDecrease
  rw [if_neg hc]

lemma scaleDecrease_fit (w h sw sh : ℚ) (hsw : 0 < sw) (hsh : 0 < sh) :
    (scaleDecrease w h sw sh).1 ≤ w ∧ (scaleDecrease w h sw sh).2 ≤ h ∧
      SpecFitPolicy w h sw sh (scaleDecrease w h sw sh).1
        (scaleDecrease w h sw sh).2 := by
  by_cases hc : w * sh ≤ sw * h
  · rw [scaleDecrease_eq_of_le hc]
    dsimp only
    have h2 : sh * w / sw ≤ h := by
      rw [div_le_iff₀ hsw]
      nlinarith
    have har : w * sh = sh * w / sw * sw := by
      rw [div_mul_cancel₀ _ (ne_of_gt hsw)]
      ring
    refine ⟨le_refl w, h2, har, le_refl w, h2, ?_⟩
    intro a b _ hab haw _
    refine ⟨haw, ?_⟩
    rw [le_div_iff₀ hsw]
    have hws : a * sh ≤ w * sh := mul_le_mul_of_nonneg_right haw (le_of_lt hsh)
    nlinarith
  · rw [scaleDecrease_eq_of_gt hc]
    dsimp only
    push_neg at hc
    have h1 : sw * h / sh ≤ w := by
      rw [div_le_iff₀ hsh]
      nlinarith
    have har : sw * h / sh * sh = h * sw := by
      rw [div_mul_cancel₀ _ (ne_of_gt hsh)]
      ring
    refine ⟨h1, le_refl h, har, h1, le_refl h, ?_⟩
    intro a b _ hab _ hbh
    refine ⟨?_, hbh⟩
    rw [le_div_iff₀ hsh]
    have hbs : b * sw ≤ h * sw := mul_le_mul_of_nonneg_right hbh (le_of_lt hsw)
    nlinarith

lemma clipVideo_in_loop {f : ClipVideoFilter} :
    ∀ (l : List VideoClip) (i : ℕ) (t : ℚ) (sc w h : ℕ),
      FilterNode.clipVideo f ∈ buildLoopFilters l i t sc w h →
      f.scale_w = w ∧ f.scale_h = h ∧ f.force_original_aspect = "decrease" ∧
        f.pad_w = w ∧ f.pad_h = h ∧ f.pad_x = "(ow-iw)/2" ∧
        f.pad_y = "(oh-ih)/2" ∧ f.pad_color = "black" := by
  intro l
  induction l with
  | nil =>
    intro i t sc w h hm
    simp [buildLoopFilters] at hm
  | cons c rest ih =>
    intro i t sc w h hm
    by_cases hgt : c.start_time > t
    · simp only [buildLoopFilters, if_pos hgt, List.mem_cons] at hm
      rcases hm with hm | hm | hm | hm | hm
      · simp at hm
      · simp at hm
      · injection hm with hm
        subst hm
        exact ⟨rfl, rfl, rfl, rfl, rfl, rfl, rfl, rfl⟩
      · simp at hm
      · exact ih (i + 1) c.end_time (sc + 1) w h hm
    · simp only [buildLoopFilters, if_neg hgt, List.mem_cons] at hm
      rcases hm with hm | hm | hm
      · injection hm with hm
        subst hm
        exact ⟨rfl, rfl, rfl, rfl, rfl, rfl, rfl, rfl⟩
      · simp at hm
      · exact ih (i + 1) c.end_time sc w h hm

/-- C6: every per-clip video chain in the emitted graph carries the scale
parameters `scale=W:H:force_original_aspect_ratio=decrease` followed by
`pad=W:H:(ow-iw)/2:(oh-ih)/2:black` with `(W, H)` the requested output
resolution (lines 213-218); for every positive source size the scaled
picture is the largest aspect-ratio-preserving size fitting inside the
target box, the padded output frame is exactly `(W, H)`, and the centring
offsets split the slack symmetrically. -/
theorem export_clip_fit_policy (params : ExportParams) (plan : ExportPlan)
    (f : ClipVideoFilter) (sw sh : ℚ)
    (hok : export_timeline params = Except.ok plan)
    (hf : FilterNode.clipVideo f ∈ plan.filters)
    (hsw : 0 < sw) (hsh : 0 < sh) :
    (f.scale_w = plan.width ∧ f.scale_h = plan.height ∧
      f.force_original_aspect = "decrease" ∧
      f.pad_w = plan.width ∧ f.pad_h = plan.height ∧
      f.pad_x = "(ow-iw)/2" ∧ f.pad_y = "(oh-ih)/2" ∧ f.pad_color = "black" ∧
      padOutput (f.pad_w : ℚ) (f.pad_h : ℚ)
          (scaleDecrease (f.scale_w : ℚ) (f.scale_h : ℚ) sw sh).1
          (scaleDecrease (f.scale_w : ℚ) (f.scale_h : ℚ) sw sh).2
        = some ((plan.width : ℚ), (plan.height : ℚ)) ∧
      evalCenterExpr (f.pad_w : ℚ)
            (scaleDecrease (f.scale_w : ℚ) (f.scale_h : ℚ) sw sh).1
          + (scaleDecrease (f.scale_w : ℚ) (f.scale_h : ℚ) sw sh).1
          + evalCenterExpr (f.pad_w : ℚ)
              (scaleDecrease (f.scale_w : ℚ) (f.scale_h : ℚ) sw sh).1
        = (f.pad_w : ℚ) ∧
      evalCenterExpr (f.pad_h : ℚ)
            (scaleDecrease (f.scale_w : ℚ) (f.scale_h : ℚ) sw sh).2
          + (scaleDecrease (f.scale_w : ℚ) (f.scale_h : ℚ) sw sh).2
          + evalCenterExpr (f.pad_h : ℚ)
              (scaleDecrease (f.scale_w : ℚ) (f.scale_h : ℚ) sw sh).2
        = (f.pad_h : ℚ)) ∧
    SpecFitPolicy (f.scale_w : ℚ) (f.scale_h : ℚ) sw sh
      (scaleDecrease (f.scale_w : ℚ) (f.scale_h : ℚ) sw sh).1
      (scaleDecrease (f.scale_w : ℚ) (f.scale_h : ℚ) sw sh).2 := by
  have hplan := export_timeline_ok_elim hok
  subst hplan
  rw [mkExportPlan_filters] at hf
  obtain ⟨hfit1, hfit2, hpol⟩ :=
    scaleDecrease_fit (f.scale_w : ℚ) (f.scale_h : ℚ) sw sh hsw hsh
  simp only [List.mem_cons, List.mem_append, List.mem_singleton] at hf
  rcases hf with hm | hm | hm | hm
  · simp at hm
  · simp at hm
  · obtain ⟨h1, h2, h3, h4, h5, h6, h7, h8⟩ := clipVideo_in_loop _ _ _ _ _ _ hm
    have hpw : f.pad_w = f.scale_w := h4.trans h1.symm
    have hph : f.pad_h = f.scale_h := h5.trans h2.symm
    rw [mkExportPlan_width, mkExportPlan_height]
    refine ⟨⟨h1, h2, h3, h4, h5, h6, h7, h8, ?_, ?_, ?_⟩, hpol⟩
    · have hcond : (scaleDecrease (f.scale_w : ℚ) (f.scale_h : ℚ) sw sh).1
          ≤ (f.pad_w : ℚ) ∧
          (scaleDecrease (f.scale_w : ℚ) (f.scale_h : ℚ) sw sh).2 ≤ (f.pad_h : ℚ) := by
        rw [hpw, hph]
        exact ⟨hfit1, hfit2⟩
      unfold padOutput
      rw [if_pos hcond, h4, h5]
    · unfold evalCenterExpr
      ring
    · unfold evalCenterExpr
      ring
  · simp at hm

def exampleClipFilter : ClipVideoFilter := mkClipVideoFilter 0 0 2 1280 720

theorem export_clip_fit_policy_witness :
    exampleClipFilter.scale_w = (mkExportPlan exampleParams).width ∧
    exampleClipFilter.scale_h = (mkExportPlan exampleParams).height ∧
    exampleClipFilter.force_original_aspect = "decrease" ∧
    exampleClipFilter.pad_w = (mkExportPlan exampleParams).width ∧
    exampleClipFilter.pad_h = (mkExportPlan exampleParams).height ∧
    exampleClipFilter.pad_x = "(ow-iw)/2" ∧
    exampleClipFilter.pad_y = "(oh-ih)/2" ∧
    exampleClipFilter.pad_color = "black" ∧
    padOutput (exampleClipFilter.pad_w : ℚ) (exampleClipFilter.pad_h : ℚ)
        (scaleDecrease (exampleClipFilter.scale_w : ℚ)
          (exampleClipFilter.scale_h : ℚ) 640 480).1
        (scaleDecrease (exampleClipFilter.scale_w : ℚ)
          (exampleClipFilter.scale_h : ℚ) 640 480).2
      = some (((mkExportPlan exampleParams).width : ℚ),
          ((mkExportPlan exampleParams).height : ℚ)) ∧
    evalCenterExpr (exampleClipFilter.pad_w : ℚ)
          (scaleDecrease (exampleClipFilter.scale_w : ℚ)
            (exampleClipFilter.scale_h : ℚ) 640 480).1
        + (scaleDecrease (exampleClipFilter.scale_w : ℚ)
            (exampleClipFilter.scale_h : ℚ) 640 480).1
        + evalCenterExpr (exampleClipFilter.pad_w : ℚ)
            (scaleDecrease (exampleClipFilter.scale_w : ℚ)
              (exampleClipFilter.scale_h : ℚ) 640 480).1
      = (exampleClipFilter.pad_w : ℚ) ∧
    evalCenterExpr (exampleClipFilter.pad_h : ℚ)
          (scaleDecrease (exampleClipFilter.scale_w : ℚ)
            (exampleClipFilter.scale_h : ℚ) 640 480).2
        + (scaleDecrease (exampleClipFilter.scale_w : ℚ)
            (exampleClipFilter.scale_h : ℚ) 640 480).2
        + evalCenterExpr (exampleClipFilter.pad_h : ℚ)
            (scaleDecrease (exampleClipFilter.scale_w : ℚ)
              (exampleClipFilter.scale_h : ℚ) 640 480).2
      = (exampleClipFilter.pad_h : ℚ) :=
  (export_clip_fit_policy exampleParams (mkExportPlan exampleParams)
    exampleClipFilter 640 480 rfl
    (by norm_num [mkExportPlan_filters, exampleParams, resolveResolution,
      sortClips, List.insertionSort, List.orderedInsert, clipLE, clipA,
      buildLoopFilters, mkClipVideoFilter, exampleClipFilter])
    (by norm_num) (by norm_num)).1
